import Mathlib

/-!
Shallow embedding of the pystatsd metric client (`statsd/client.py`).

Python floats are modelled as exact rationals (`ℚ`): the values exercised by
the specification (integers, halves, tenths) are exactly representable, and
the library never does float arithmetic beyond subtraction and a scale by
1000.  The module-level random source is modelled as an explicit `draw`
argument in `[0,1)`; wall-clock reads (`time_now()`) are explicit time
arguments; the UDP socket is an explicit oracle function.  Exceptions are
modelled with `Except` / an `Outcome` sum.
-/

set_option autoImplicit false

namespace Statsd

/-- Result of running a block of user code: either a value or a raised
exception (identified by a message string). -/
inductive Outcome (α : Type) where
  | ok (v : α)
  | exc (e : String)
  deriving DecidableEq, Repr

/-- Exceptions that the transport layer can see.  `socketErr` stands for
`socket.error` (including `socket.timeout`), `runtimeErr` for
`RuntimeError`, `unicodeEncodeErr` for the `UnicodeEncodeError` raised by
`str.encode('ascii')` on non-ASCII input, `otherErr` for anything else. -/
inductive PyExc where
  | socketErr (msg : String)
  | runtimeErr (msg : String)
  | unicodeEncodeErr
  | otherErr (msg : String)
  deriving DecidableEq, Repr

/-- A call `client.timing(stat, ms, rate)` recorded abstractly: this is the
boundary between `Timer` and its owning client in `client.py`. -/
structure Emission where
  stat : String
  ms : ℚ
  rate : ℚ
  deriving DecidableEq, Repr

/-- Decimal digits of a fraction `0 ≤ q < 1`, most significant first,
stopping at the first exact zero remainder (fuel-bounded; every Python
float has a terminating decimal expansion). -/
def fracDigits : Nat → ℚ → List Char
  | 0, _ => []
  | fuel + 1, q =>
    if q = 0 then []
    else
      let q10 := q * 10
      Nat.digitChar (Int.floor q10).toNat :: fracDigits fuel (q10 - Int.floor q10)

/-- Python `str()` of a float value, modelled on the exact rational the
float denotes: sign, integer part, `'.'`, then the terminating decimal
expansion of the fractional part (`'0'` when there is none). -/
def pyFloatStr (q : ℚ) : String :=
  let sign := if q < 0 then "-" else ""
  let a := |q|
  let ip : Nat := (Int.floor a).toNat
  let fr := a - Int.floor a
  sign ++ toString ip ++ "." ++ (if fr = 0 then "0" else String.mk (fracDigits 64 fr))

/-- Round to the nearest integer with ties to even, the rounding printf
applies to the exact decimal value of a double when formatting with
`%f`. -/
def roundHalfEven (q : ℚ) : ℤ :=
  let f := Int.floor q
  let r := q - f
  if r < 1/2 then f
  else if 1/2 < r then f + 1
  else if f % 2 = 0 then f else f + 1

/-- The six fraction digits of `%0.6f`, most significant first, for a
scaled fraction `fp < 10^6` (zero-padded on the left by construction). -/
def frac6 (fp : Nat) : List Char :=
  [Nat.digitChar (fp / 100000 % 10), Nat.digitChar (fp / 10000 % 10),
   Nat.digitChar (fp / 1000 % 10), Nat.digitChar (fp / 100 % 10),
   Nat.digitChar (fp / 10 % 10), Nat.digitChar (fp % 10)]

/-- Value of `'%0.6f' % q` (the rendering used by `timing`): fixed
six-fractional-digit decimal, never scientific notation.  The float is
modelled as the exact rational it denotes; as printf does, the magnitude
is rounded to six decimal places with ties to even
(`1/128 ↦ 0.007812`), and the sign is taken from the value itself, so a
negative value rounding to zero still renders `-0.000000`. -/
def fixed6 (q : ℚ) : String :=
  let sign := if q < 0 then "-" else ""
  let n : Nat := (roundHalfEven (|q| * 1000000)).toNat
  let ip := n / 1000000
  let fp := n % 1000000
  sign ++ (toString ip ++ ("." ++ String.mk (frac6 fp)))

/-- Timer state: mirrors the mutable fields set in `Timer.__init__`
(`self.ms`, `self._sent`, `self._start_time`) plus the immutable
`stat`/`rate` pair.  The owning client is kept outside the structure:
emissions are returned as `Emission` values. -/
structure Timer where
  stat : String
  rate : ℚ
  ms : Option ℚ
  sent : Bool
  startTime : Option ℚ
  deriving DecidableEq, Repr

/-- Mirror of `Timer.__init__`: `ms = None`, `_sent = False`,
`_start_time = None`. -/
def Timer.init (stat : String) (rate : ℚ) : Timer :=
  { stat := stat, rate := rate, ms := none, sent := false, startTime := none }

/-- Mirror of `Timer.start`: clears `ms` and `_sent`, records the current
monotonic time, returns self. -/
def Timer.start (t : Timer) (now : ℚ) : Timer :=
  { t with ms := none, sent := false, startTime := some now }

/-- Mirror of `Timer.send`: raises `'No data recorded.'` when `ms` is
unset, `'Already sent data.'` when already sent; otherwise marks sent and
calls `client.timing(stat, ms, rate)` (returned as an `Emission`). -/
def Timer.send (t : Timer) : Except String (Timer × Emission) :=
  match t.ms with
  | none => .error "No data recorded."
  | some m =>
    if t.sent then .error "Already sent data."
    else .ok ({ t with sent := true }, { stat := t.stat, ms := m, rate := t.rate })

/-- Mirror of `Timer.stop(send=doSend)`: raises `'Timer has not started.'`
when never started, records `ms = 1000 * (now - start_time)`, then calls
`send()` when `doSend`.  Returns the updated timer and the emissions made
(zero or one). -/
def Timer.stop (t : Timer) (now : ℚ) (doSend : Bool) : Except String (Timer × List Emission) :=
  match t.startTime with
  | none => .error "Timer has not started."
  | some st =>
    let t1 := { t with ms := some (1000 * (now - st)) }
    if doSend then
      match Timer.send t1 with
      | .error e => .error e
      | .ok (t2, em) => .ok (t2, [em])
    else .ok (t1, [])

/-- Mirror of `Timer.__enter__`: `return self.start()`. -/
def Timer.enter (t : Timer) (now : ℚ) : Timer :=
  Timer.start t now

/-- Mirror of `Timer.__exit__`: `self.stop()` with the default
`send=True`; returns `None`, so a body exception is never suppressed. -/
def Timer.exit (t : Timer) (now : ℚ) : Except String (Timer × List Emission) :=
  Timer.stop t now true

/-- Semantics of `with timer: body` (`with` statement over
`__enter__`/`__exit__`): the body sees the started timer; `__exit__` runs
on every exit path; since it returns `None` the body's outcome — value or
exception — is propagated unchanged.  Should `__exit__` itself raise, that
exception replaces the body's outcome (this branch is proved unreachable
after `__enter__`). -/
def withTimer {α : Type} (t : Timer) (t0 t1 : ℚ) (body : Timer → Outcome α) :
    Outcome α × Timer × List Emission :=
  let tr := Timer.enter t t0
  let r := body tr
  match Timer.exit tr t1 with
  | .ok (t2, ems) => (r, t2, ems)
  | .error e => (Outcome.exc e, tr, [])

/-- Mirror of `Timer.__call__`'s `_wrapped` closure: each invocation takes
a local `start_time`, runs `f` on the given arguments inside
`try/finally`, always emits `client.timing(self.stat, elapsed, self.rate)`
from the local elapsed time, and returns or re-raises the body's outcome.
The timer instance `t` is only read for `stat` and `rate`; it is returned
untouched. -/
def Timer.call {α β : Type} (t : Timer) (f : α → Outcome β) (t0 t1 : ℚ) (x : α) :
    Outcome β × Timer × List Emission :=
  match f x with
  | .ok v => (.ok v, t, [{ stat := t.stat, ms := 1000 * (t1 - t0), rate := t.rate }])
  | .exc e => (.exc e, t, [{ stat := t.stat, ms := 1000 * (t1 - t0), rate := t.rate }])

/-- Mirror of the prefix step of `StatsClientBase._prepare`:
`if self._prefix: stat = '%s.%s' % (self._prefix, stat)` — Python
truthiness makes both `None` and the empty string skip the step. -/
def prefixed (pfx : Option String) (stat : String) : String :=
  match pfx with
  | some p => if p = "" then stat else p ++ "." ++ stat
  | none => stat

/-- Mirror of the sampling gate of `StatsClientBase._prepare`: when
`rate < 1`, suppress the value when the uniform draw strictly exceeds the
rate, otherwise append `'|@' + str(rate)`; when `rate ≥ 1` pass the value
through untouched (no draw is consumed). -/
def sampleGate (value : String) (rate draw : ℚ) : Option String :=
  if rate < 1 then
    if draw > rate then none
    else some (value ++ "|@" ++ pyFloatStr rate)
  else some value

/-- Mirror of `StatsClientBase._prepare(stat, value, rate)`. -/
def prepare (pfx : Option String) (stat value : String) (rate draw : ℚ) : Option String :=
  match sampleGate value rate draw with
  | none => none
  | some v => some (prefixed pfx stat ++ ":" ++ v)

/-- Mirror of `StatsClientBase._after`: `if data: self._send(data)` —
`None` and the empty string are dropped, anything else becomes one
datagram.  The datagram log stands for the sequence of `_send` calls. -/
def after (log : List String) (data : Option String) : List String :=
  match data with
  | none => log
  | some d => if d = "" then log else log ++ [d]

/-- Mirror of `StatsClientBase._send_stat`. -/
def sendStat (pfx : Option String) (log : List String) (stat value : String) (rate draw : ℚ) :
    List String :=
  after log (prepare pfx stat value rate draw)

/-- Mirror of `StatsClientBase.incr`: value rendered as `'%s|c' % count`. -/
def incr (pfx : Option String) (log : List String) (stat : String) (count : Int) (rate draw : ℚ) :
    List String :=
  sendStat pfx log stat (toString count ++ "|c") rate draw

/-- Mirror of `StatsClientBase.decr`: `self.incr(stat, -count, rate)`. -/
def decr (pfx : Option String) (log : List String) (stat : String) (count : Int) (rate draw : ℚ) :
    List String :=
  incr pfx log stat (-count) rate draw

/-- Mirror of `StatsClientBase.set`: value rendered as `'%s|s' % value`,
the payload's Python `str()` form taken as given. -/
def set (pfx : Option String) (log : List String) (stat value : String) (rate draw : ℚ) :
    List String :=
  sendStat pfx log stat (value ++ "|s") rate draw

/-- Mirror of `StatsClientBase.timing`: value rendered as
`'%0.6f|ms' % delta`. -/
def timing (pfx : Option String) (log : List String) (stat : String) (delta : ℚ) (rate draw : ℚ) :
    List String :=
  sendStat pfx log stat (fixed6 delta ++ "|ms") rate draw

/-- The exception classes named in the `except (socket.error, RuntimeError)`
clause of `StatsClient._send`: exactly these are caught. -/
def caughtBySend : PyExc → Bool
  | .socketErr _ => true
  | .runtimeErr _ => true
  | .unicodeEncodeErr => false
  | .otherErr _ => false

/-- Mirror of `data.encode('ascii')`: the code-point sequence when every
character is below 128, a `UnicodeEncodeError` otherwise. -/
def encodeAscii (s : String) : Except PyExc (List Nat) :=
  if s.toList.all (fun c => c.toNat < 128) then .ok (s.toList.map Char.toNat)
  else .error PyExc.unicodeEncodeErr

/-- Mirror of `StatsClient._send(data)`.  `sock` is the OS datagram-send
primitive (`self._sock.sendto` targeting the resolved address), given as an
oracle that either delivers the bytes or raises.  Both the `encode` call
and the `sendto` call sit inside the `try`; only `socket.error` and
`RuntimeError` are caught.  The result lists the datagrams put on the wire
(zero or one). -/
def clientSend (sock : List Nat → Except PyExc Unit) (data : String) :
    Except PyExc (List (List Nat)) :=
  let body : Except PyExc (List (List Nat)) :=
    match encodeAscii data with
    | .error e => .error e
    | .ok bs =>
      match sock bs with
      | .error e => .error e
      | .ok _ => .ok [bs]
  match body with
  | .ok r => .ok r
  | .error e => if caughtBySend e then .ok [] else .error e

/-- Address families relevant to `socket.getaddrinfo`. -/
inductive AddrFamily where
  | afInet
  | afInet6
  deriving DecidableEq, Repr

/-- The keyword parameters accepted by `StatsClient.__init__` as written:
`host`, `port`, `prefix`, `maxudpsize` (besides `self`).  There is no
`ipv6` parameter. -/
def initKeywords : List String :=
  ["host", "port", "prefix", "maxudpsize"]

/-- Python call semantics for `StatsClient(**kwargs)`: a keyword argument
whose name is not a parameter of `__init__` raises `TypeError` before any
constructor code runs. -/
def callInit (kwargs : List String) : Except String Unit :=
  match kwargs.find? (fun k => !initKeywords.contains k) with
  | some k => .error ("TypeError: __init__() got an unexpected keyword argument " ++ k)
  | none => .ok ()

/-- The address family `StatsClient.__init__` passes to
`socket.getaddrinfo`: the local `fam = socket.AF_INET` is assigned
unconditionally, whatever the host or any configuration. -/
def requestedFamily (host : String) (port : Nat) : AddrFamily :=
  AddrFamily.afInet

lemma append_colon_ne_empty (a b : String) : a ++ ":" ++ b ≠ "" := by
  obtain ⟨la⟩ := a
  obtain ⟨lb⟩ := b
  intro h
  have hd : la ++ [':'] ++ lb = [] := congrArg String.data h
  simp at hd

lemma prefixed_colon_ne_empty (pfx : Option String) (stat v : String) :
    prefixed pfx stat ++ ":" ++ v ≠ "" :=
  append_colon_ne_empty _ _

/-- Helper: the decorator's per-invocation step leaves the timer state
untouched, whatever the outcome of the wrapped call. -/
lemma call_snd_fst {α β : Type} (t : Timer) (f : α → Outcome β) (t0 t1 : ℚ) (x : α) :
    (Timer.call t f t0 t1 x).2.1 = t := by
  cases h : f x <;> simp [Timer.call, h]

lemma call_foldl_const {α β : Type} (f : α → Outcome β) (invs : List (ℚ × ℚ × α)) (t : Timer) :
    invs.foldl (fun tc i => (Timer.call tc f i.1 i.2.1 i.2.2).2.1) t = t := by
  induction invs generalizing t with
  | nil => rfl
  | cons a l ih => simpa [call_snd_fst] using ih t

/-- C2: in scoped mode, `__enter__` is `start()` and returns the started
timer handle; `ms` is unset inside the scope; `__exit__` runs `stop()`
with auto-send, producing exactly one timing emission and a numeric `ms`,
on normal and exceptional exit alike; the body's outcome — value or
exception — is propagated unchanged. -/
theorem timer_scope_c2 {α : Type} (t : Timer) (t0 t1 : ℚ) (body : Timer → Outcome α) :
    Timer.enter t t0 = Timer.start t t0 ∧
    (Timer.start t t0).ms = none ∧
    Timer.exit (Timer.enter t t0) t1 =
      .ok ({ stat := t.stat, rate := t.rate, ms := some (1000 * (t1 - t0)), sent := true,
             startTime := some t0 },
           [{ stat := t.stat, ms := 1000 * (t1 - t0), rate := t.rate }]) ∧
    withTimer t t0 t1 body =
      (body (Timer.start t t0),
       { stat := t.stat, rate := t.rate, ms := some (1000 * (t1 - t0)), sent := true,
         startTime := some t0 },
       [{ stat := t.stat, ms := 1000 * (t1 - t0), rate := t.rate }]) := by
  refine ⟨rfl, rfl, rfl, ?_⟩
  simp [withTimer, Timer.exit, Timer.enter, Timer.stop, Timer.start, Timer.send]

/-- C3: `stop()` before `start()` raises `'Timer has not started.'`;
`send()` with no recorded data raises `'No data recorded.'`; a first
`send()` after a stop emits `client.timing(stat, ms, rate)` exactly once,
and a second `send()` in the same cycle raises `'Already sent data.'`. -/
theorem timer_protocol_c3 :
    (∀ (t : Timer) (now : ℚ) (b : Bool), t.startTime = none →
        Timer.stop t now b = .error "Timer has not started.") ∧
    (∀ t : Timer, t.ms = none → Timer.send t = .error "No data recorded.") ∧
    (∀ (t : Timer) (m : ℚ), t.ms = some m → t.sent = false →
        Timer.send t = .ok ({ t with sent := true },
          { stat := t.stat, ms := m, rate := t.rate })) ∧
    (∀ (t t' : Timer) (em : Emission), Timer.send t = .ok (t', em) →
        Timer.send t' = .error "Already sent data.") := by
  refine ⟨?_, ?_, ?_, ?_⟩
  · intro t now b h
    simp [Timer.stop, h]
  · intro t h
    simp [Timer.send, h]
  · intro t m h hs
    simp [Timer.send, h, hs]
  · intro t t' em h
    obtain ⟨stat, rate, ms, sent, st⟩ := t
    cases ms with
    | none => simp [Timer.send] at h
    | some m =>
      cases sent with
      | true => simp [Timer.send] at h
      | false =>
        have h' : (Except.ok (Timer.mk stat rate (some m) true st, Emission.mk stat m rate) :
            Except String (Timer × Emission)) = .ok (t', em) := h
        simp only [Except.ok.injEq, Prod.mk.injEq] at h'
        obtain ⟨h1, h2⟩ := h'
        subst h1
        rfl

/-- C3 witness: the protocol errors and the single successful send, on
concrete timers. -/
theorem timer_protocol_c3_witness :
    Timer.stop { stat := "foo", rate := 1, ms := none, sent := false, startTime := none } 5 true
        = .error "Timer has not started." ∧
    Timer.send { stat := "foo", rate := 1, ms := none, sent := false, startTime := some 2 }
        = .error "No data recorded." ∧
    Timer.send { stat := "foo", rate := 1, ms := some 3, sent := false, startTime := some 2 }
        = .ok ({ stat := "foo", rate := 1, ms := some 3, sent := true, startTime := some 2 },
               { stat := "foo", ms := 3, rate := 1 }) ∧
    Timer.send { stat := "foo", rate := 1, ms := some 3, sent := true, startTime := some 2 }
        = .error "Already sent data." :=
  ⟨timer_protocol_c3.1 _ 5 true rfl,
   timer_protocol_c3.2.1 _ rfl,
   timer_protocol_c3.2.2.1 _ 3 rfl rfl,
   timer_protocol_c3.2.2.2
     { stat := "foo", rate := 1, ms := some 3, sent := false, startTime := some 2 }
     _ _ (timer_protocol_c3.2.2.1 _ 3 rfl rfl)⟩

/-- C4: each invocation of a Timer-wrapped callable passes the arguments
through unchanged, returns the callable's outcome unchanged (value or
exception), leaves the timer instance untouched, and always emits exactly
one timing of the locally measured elapsed time — also when the callable
raises. -/
theorem timer_decorator_c4 {α β : Type} (t : Timer) (f : α → Outcome β) (t0 t1 : ℚ) (x : α) :
    Timer.call t f t0 t1 x
      = (f x, t, [{ stat := t.stat, ms := 1000 * (t1 - t0), rate := t.rate }]) := by
  cases h : f x <;> simp [Timer.call, h]

/-- C10: decorated invocations never touch the timer's mutable fields:
any sequence of invocations leaves the timer exactly as `__init__` built
it, so its `ms` is still unset and a direct `send()` still raises
`'No data recorded.'`. -/
theorem timer_decorator_frame_c10 {α β : Type} (stat : String) (rate : ℚ)
    (f : α → Outcome β) (invs : List (ℚ × ℚ × α)) :
    (∀ (t : Timer) (t0 t1 : ℚ) (x : α), (Timer.call t f t0 t1 x).2.1 = t) ∧
    invs.foldl (fun tc i => (Timer.call tc f i.1 i.2.1 i.2.2).2.1) (Timer.init stat rate)
        = Timer.init stat rate ∧
    (Timer.init stat rate).ms = none ∧
    Timer.send (Timer.init stat rate) = .error "No data recorded." :=
  ⟨fun t t0 t1 x => call_snd_fst t f t0 t1 x,
   call_foldl_const f invs _, rfl, rfl⟩

/-- C1: the sampling gate of `_prepare`.  At rate 1 the draw is never
consulted (the result is the same for every draw) and exactly one
unannotated line is produced; at a rate in `(0,1)` the call is suppressed
exactly when the draw strictly exceeds the rate, and otherwise produces
exactly one line with `|@rate` appended to the value portion.  All four
public operations funnel through `sendStat` with their rendered value. -/
theorem sampling_c1 (pfx : Option String) (log : List String) (stat value : String)
    (rate draw : ℚ) :
    (rate = 1 →
      sendStat pfx log stat value rate draw = log ++ [prefixed pfx stat ++ ":" ++ value] ∧
      ∀ draw2 : ℚ, sendStat pfx log stat value rate draw2 = sendStat pfx log stat value rate draw) ∧
    (0 < rate → rate < 1 →
      (rate < draw → sendStat pfx log stat value rate draw = log) ∧
      (draw ≤ rate →
        sendStat pfx log stat value rate draw
          = log ++ [prefixed pfx stat ++ ":" ++ (value ++ "|@" ++ pyFloatStr rate)])) ∧
    (∀ count : ℤ, incr pfx log stat count rate draw
        = sendStat pfx log stat (toString count ++ "|c") rate draw) ∧
    (∀ count : ℤ, decr pfx log stat count rate draw
        = sendStat pfx log stat (toString (-count) ++ "|c") rate draw) ∧
    set pfx log stat value rate draw = sendStat pfx log stat (value ++ "|s") rate draw ∧
    (∀ delta : ℚ, timing pfx log stat delta rate draw
        = sendStat pfx log stat (fixed6 delta ++ "|ms") rate draw) := by
  refine ⟨?_, ?_, fun _ => rfl, fun _ => rfl, rfl, fun _ => rfl⟩
  · intro h1
    subst h1
    constructor
    · simp [sendStat, prepare, sampleGate, after, lt_irrefl, prefixed_colon_ne_empty]
    · intro draw2
      simp [sendStat, prepare, sampleGate, lt_irrefl]
  · intro hpos hlt
    constructor
    · intro hgt
      simp [sendStat, prepare, sampleGate, after, hlt, hgt]
    · intro hle
      have hng : ¬ rate < draw := not_lt.mpr hle
      simp [sendStat, prepare, sampleGate, after, hlt, hng, prefixed_colon_ne_empty]

/-- C1 witness: rate 1 emits one bare line; rate 1/2 with the draw above
suppresses; rate 1/2 with the draw below emits one annotated line. -/
theorem sampling_c1_witness :
    sendStat none [] "foo" "1|c" 1 (mkRat 3 4) = ["foo:1|c"] ∧
    sendStat none [] "foo" "1|c" (mkRat 1 2) 1 = [] ∧
    sendStat none [] "foo" "1|c" (mkRat 1 2) 0
      = ["foo" ++ ":" ++ ("1|c" ++ "|@" ++ pyFloatStr (mkRat 1 2))] :=
  ⟨((sampling_c1 none [] "foo" "1|c" 1 (mkRat 3 4)).1 rfl).1,
   ((sampling_c1 none [] "foo" "1|c" (mkRat 1 2) 1).2.1 (by decide) (by decide)).1 (by decide),
   ((sampling_c1 none [] "foo" "1|c" (mkRat 1 2) 0).2.1 (by decide) (by decide)).2 (by decide)⟩

/-- C8: a non-empty configured prefix is prepended to every stat name of
every operation with a `.` separator (the prefixing step is applied to
whatever the sampling gate lets through); with no prefix the stat name is
used as given; `increment('bar')` under prefix `foo` yields
`foo.bar:1|c`. -/
theorem prefix_namespacing_c8 (p stat value : String) (log : List String) (rate draw : ℚ) :
    (p ≠ "" → prefixed (some p) stat = p ++ "." ++ stat) ∧
    prefixed none stat = stat ∧
    (p ≠ "" → prepare (some p) stat value rate draw
        = Option.map (fun v => p ++ "." ++ stat ++ ":" ++ v) (sampleGate value rate draw)) ∧
    prepare none stat value rate draw
        = Option.map (fun v => stat ++ ":" ++ v) (sampleGate value rate draw) ∧
    incr (some "foo") [] "bar" 1 1 0 = ["foo.bar:1|c"] := by
  refine ⟨fun h => by simp [prefixed, h], rfl, fun h => ?_, ?_, by decide⟩
  · cases hg : sampleGate value rate draw <;> simp [prepare, prefixed, hg, h]
  · cases hg : sampleGate value rate draw <;> simp [prepare, prefixed, hg]

/-- C8 witness: the prefixing equations at prefix `foo`. -/
theorem prefix_namespacing_c8_witness :
    prefixed (some "foo") "bar" = "foo" ++ "." ++ "bar" ∧
    prepare (some "foo") "bar" "1|c" 1 0
      = Option.map (fun v => "foo" ++ "." ++ "bar" ++ ":" ++ v) (sampleGate "1|c" 1 0) :=
  ⟨(prefix_namespacing_c8 "foo" "bar" "1|c" [] 1 0).1 (by decide),
   (prefix_namespacing_c8 "foo" "bar" "1|c" [] 1 0).2.2.1 (by decide)⟩

/-- C9: `decr(stat, count, rate)` is literally `incr(stat, -count, rate)`,
so the wire lines differ only in the sign of the value:
`decr('foo', 5)` yields `foo:-5|c` where `incr('foo', 5)` yields
`foo:5|c`. -/
theorem decr_incr_c9 (pfx : Option String) (log : List String) (stat : String)
    (count : ℤ) (rate draw : ℚ) :
    decr pfx log stat count rate draw = incr pfx log stat (-count) rate draw ∧
    decr none [] "foo" 5 1 0 = ["foo:-5|c"] ∧
    incr none [] "foo" 5 1 0 = ["foo:5|c"] :=
  ⟨rfl, by decide, by decide⟩

lemma int_toString_split (d : ℤ) :
    toString d = (if d < 0 then "-" else "") ++ toString d.natAbs := by
  cases d with
  | ofNat m =>
    rw [if_neg (show ¬ Int.ofNat m < 0 from Int.not_lt.mpr (Int.ofNat_nonneg m))]
    rfl
  | negSucc m =>
    rw [if_pos (Int.negSucc_lt_zero m)]
    rfl

lemma digitChar_isDigit : ∀ m : ℕ, m < 10 → (Nat.digitChar m).isDigit = true := by decide

lemma toDigitsCore_isDigit (fuel : ℕ) : ∀ (n : ℕ) (ds : List Char),
    (∀ c ∈ ds, c.isDigit = true) → ∀ c ∈ Nat.toDigitsCore 10 fuel n ds, c.isDigit = true := by
  induction fuel with
  | zero =>
    intro n ds h c hc
    simp only [Nat.toDigitsCore] at hc
    exact h c hc
  | succ fuel ih =>
    intro n ds h c hc
    simp only [Nat.toDigitsCore] at hc
    by_cases h0 : n / 10 = 0
    · rw [if_pos h0] at hc
      rcases List.mem_cons.mp hc with h1 | h1
      · subst h1
        exact digitChar_isDigit _ (Nat.mod_lt _ (by norm_num))
      · exact h c h1
    · rw [if_neg h0] at hc
      refine ih (n / 10) _ ?_ c hc
      intro c' hc'
      rcases List.mem_cons.mp hc' with h1 | h1
      · subst h1
        exact digitChar_isDigit _ (Nat.mod_lt _ (by norm_num))
      · exact h c' h1

lemma toDigitsCore_ne_nil (fuel : ℕ) : ∀ (n : ℕ) (ds : List Char),
    (0 < fuel ∨ ds ≠ []) → Nat.toDigitsCore 10 fuel n ds ≠ [] := by
  induction fuel with
  | zero =>
    intro n ds h
    simp only [Nat.toDigitsCore]
    rcases h with h | h
    · omega
    · exact h
  | succ fuel ih =>
    intro n ds h
    simp only [Nat.toDigitsCore]
    by_cases h0 : n / 10 = 0
    · rw [if_pos h0]
      exact List.cons_ne_nil _ _
    · rw [if_neg h0]
      exact ih (n / 10) _ (Or.inr (List.cons_ne_nil _ _))

/-- Every character of the decimal rendering of a natural number is a
digit — in particular never `'e'`. -/
lemma repr_data_isDigit (n : ℕ) : ∀ c ∈ (Nat.repr n).data, c.isDigit = true :=
  toDigitsCore_isDigit (n + 1) n [] (by intro c hc; cases hc)

lemma repr_data_ne_nil (n : ℕ) : (Nat.repr n).data ≠ [] :=
  toDigitsCore_ne_nil (n + 1) n [] (Or.inl (Nat.succ_pos n))

lemma frac6_isDigit (fp : ℕ) : ∀ c ∈ frac6 fp, c.isDigit = true := by
  intro c hc
  simp only [frac6, List.mem_cons, List.not_mem_nil, or_false] at hc
  rcases hc with h | h | h | h | h | h <;>
    (subst h; exact digitChar_isDigit _ (Nat.mod_lt _ (by norm_num)))

/-- For every rational value, `'%0.6f'` renders an optional minus sign
(exactly when the value is negative), a non-empty run of decimal digits,
a dot, and exactly six decimal digits — fixed-point notation, never
scientific. -/
lemma fixed6_shape (q : ℚ) : ∃ ip fr : List Char,
    fixed6 q = (if q < 0 then "-" else "") ++ (String.mk ip ++ ("." ++ String.mk fr)) ∧
    ip ≠ [] ∧ fr.length = 6 ∧
    ip.all Char.isDigit = true ∧ fr.all Char.isDigit = true := by
  refine ⟨(Nat.repr ((roundHalfEven (|q| * 1000000)).toNat / 1000000)).data,
      frac6 ((roundHalfEven (|q| * 1000000)).toNat % 1000000), rfl,
      repr_data_ne_nil _, rfl, ?_, ?_⟩
  · exact List.all_eq_true.mpr (repr_data_isDigit _)
  · exact List.all_eq_true.mpr (frac6_isDigit _)

lemma roundHalfEven_natCast (n : ℕ) : roundHalfEven (n : ℚ) = n := by
  simp only [roundHalfEven]
  rw [Int.floor_natCast]
  simp [sub_self]

/-- On a whole number of milliseconds, `'%0.6f'` renders the plain decimal
integer followed by six zero fraction digits — never scientific
notation. -/
lemma fixed6_intCast (d : ℤ) : fixed6 (d : ℚ) = toString d ++ ".000000" := by
  have habs : |(d:ℚ)| * 1000000 = ((d.natAbs * 1000000 : ℕ) : ℚ) := by
    push_cast [Int.cast_natAbs]
    ring
  have hdiv : d.natAbs * 1000000 / 1000000 = d.natAbs := by omega
  have hmod : d.natAbs * 1000000 % 1000000 = 0 := by omega
  have hfr : ("." ++ String.mk (frac6 0) : String) = ".000000" := rfl
  simp only [fixed6, habs, roundHalfEven_natCast, Int.toNat_natCast, hdiv, hmod, hfr,
    Int.cast_lt_zero]
  rw [int_toString_split d, String.append_assoc]

/-- Fidelity of `fixed6` to printf at a decimal tie: `1/128` (an exactly
representable float, `0.0078125`) rounds its sixth fraction digit to the
even neighbour, as `'%0.6f' % (1/128)` does in Python — not half-up. -/
lemma fixed6_tie_even : fixed6 (1/128 : ℚ) = "0.007812" := by
  have hq : ¬ ((1/128 : ℚ) < 0) := by norm_num
  have h1 : |(1/128 : ℚ)| * 1000000 = 15625/2 := by
    rw [abs_of_nonneg (by norm_num : (0:ℚ) ≤ 1/128)]
    norm_num
  have h2 : roundHalfEven ((15625:ℚ)/2) = 7812 := by
    have hf : ⌊(15625:ℚ)/2⌋ = 7812 := by norm_num
    simp only [roundHalfEven, hf]
    norm_num
  simp only [fixed6, h1, h2, if_neg hq]
  decide

/-- Fidelity of `fixed6` to printf on a tiny negative value: the sign of
the value survives even though the magnitude rounds to zero, as
`'%0.6f' % (-1e-07)` yields `-0.000000` in Python. -/
lemma fixed6_neg_zero : fixed6 (-(1/10000000) : ℚ) = "-0.000000" := by
  have hq : (-(1/10000000) : ℚ) < 0 := by norm_num
  have h1 : |(-(1/10000000) : ℚ)| * 1000000 = 1/10 := by
    rw [abs_of_nonpos (by norm_num : (-(1/10000000) : ℚ) ≤ 0)]
    norm_num
  have h2 : roundHalfEven ((1:ℚ)/10) = 0 := by
    have hf : ⌊(1:ℚ)/10⌋ = 0 := by norm_num
    simp only [roundHalfEven, hf]
    norm_num
  simp only [fixed6, h1, h2, if_pos hq]
  decide

lemma timing_int_line (pfx : Option String) (log : List String) (stat : String)
    (d : ℤ) (draw : ℚ) :
    timing pfx log stat (d : ℚ) 1 draw
      = log ++ [prefixed pfx stat ++ ":" ++ ((toString d ++ ".000000") ++ "|ms")] := by
  simp [timing, sendStat, prepare, sampleGate, after, lt_irrefl, fixed6_intCast,
    prefixed_colon_ne_empty]

/-- C7: for every numeric milliseconds value the rendered payload is
fixed-point decimal — an optional minus sign exactly when the value is
negative, a non-empty digit run, a dot, and exactly six fraction digits,
all characters digits, so never scientific notation regardless of
magnitude; on whole values the line is the plain decimal integer plus
`.000000`; `timing('foo', 100)` is the exact line `foo:100.000000|ms`
and `1234568901234` renders in plain decimal. -/
theorem timing_render_c7 :
    (∀ q : ℚ, ∃ ip fr : List Char,
      fixed6 q = (if q < 0 then "-" else "") ++ (String.mk ip ++ ("." ++ String.mk fr)) ∧
      ip ≠ [] ∧ fr.length = 6 ∧
      ip.all Char.isDigit = true ∧ fr.all Char.isDigit = true) ∧
    (∀ (pfx : Option String) (log : List String) (stat : String) (d : ℤ) (draw : ℚ),
      timing pfx log stat (d : ℚ) 1 draw
        = log ++ [prefixed pfx stat ++ ":" ++ ((toString d ++ ".000000") ++ "|ms")]) ∧
    timing none [] "foo" 100 1 0 = ["foo:100.000000|ms"] ∧
    timing none [] "foo" 1234568901234 1 0 = ["foo:1234568901234.000000|ms"] := by
  refine ⟨fixed6_shape, timing_int_line, ?_, ?_⟩
  · have h := timing_int_line none [] "foo" 100 0
    have hc : (((100 : ℤ) : ℚ)) = (100 : ℚ) := by norm_num
    rw [hc] at h
    exact h.trans (by decide)
  · have h := timing_int_line none [] "foo" 1234568901234 0
    have hc : (((1234568901234 : ℤ) : ℚ)) = (1234568901234 : ℚ) := by norm_num
    rw [hc] at h
    exact h.trans (by decide)

/-- C5 counterexample: the claim quantifies over every input line, but a
line containing a non-ASCII character makes `data.encode('ascii')` raise
`UnicodeEncodeError`, which the `except (socket.error, RuntimeError)`
clause does not catch — the exception escapes even though the socket
itself never fails. -/
theorem transport_nonascii_c5_cex :
    clientSend (fun _ => Except.ok ()) "é:1|c" = .error PyExc.unicodeEncodeErr := rfl

/-- C5 as amended: for every ASCII input line, no exception escapes
`_send` — every error the OS send primitive raises (socket errors,
runtime errors) is caught and discarded, the call returns normally, and
zero or one datagram goes out. -/
theorem transport_swallow_c5 (sock : List Nat → Except PyExc Unit) (data : String)
    (hascii : ∀ c ∈ data.toList, c.toNat < 128)
    (hsock : ∀ bs e, sock bs = .error e → caughtBySend e = true) :
    ∃ r, clientSend sock data = .ok r ∧ (r = [] ∨ ∃ bs, r = [bs]) := by
  have henc : encodeAscii data = .ok (data.toList.map Char.toNat) := by
    unfold encodeAscii
    rw [if_pos (List.all_eq_true.mpr fun c hc => decide_eq_true (hascii c hc))]
  cases hs : sock (data.toList.map Char.toNat) with
  | ok u =>
    refine ⟨[data.toList.map Char.toNat], ?_, Or.inr ⟨_, rfl⟩⟩
    simp only [clientSend, henc, hs]
  | error e =>
    refine ⟨[], ?_, Or.inl rfl⟩
    simp only [clientSend, henc, hs, hsock _ _ hs, if_true]

/-- C5 witness: a socket timeout on a plain counter line is absorbed and
nothing is put on the wire. -/
theorem transport_swallow_c5_witness :
    ∃ r, clientSend (fun _ => Except.error (PyExc.socketErr "timeout")) "foo:1|c" = .ok r ∧
      (r = [] ∨ ∃ bs, r = [bs]) :=
  transport_swallow_c5 _ _ (by decide) (fun bs e h => by cases h; rfl)

/-- C6: the constructor of `StatsClient` accepts no address-family
preference — its keyword set is exactly `host`, `port`, `prefix`,
`maxudpsize`, so the repository's own test-suite call passing `ipv6=`
raises `TypeError` — and the family it requests from `getaddrinfo` is
`AF_INET` for every host and port, never `AF_INET6`. -/
theorem init_family_c6 :
    callInit ["host", "port", "prefix", "ipv6"]
      = .error "TypeError: __init__() got an unexpected keyword argument ipv6" ∧
    (∀ (host : String) (port : Nat), requestedFamily host port = AddrFamily.afInet) ∧
    initKeywords = ["host", "port", "prefix", "maxudpsize"] :=
  ⟨rfl, fun _ _ => rfl, rfl⟩

end Statsd
